import Mathlib

/-!
Verification development for the SpDrL20 signal tower (frischen/spdrl20.py).

The definitions below are a shallow embedding of the tower's element model:
pure helpers (`to_bool`, `array_to_str`), the per-element state records and
their panel/trackside message handlers, the generic `Element.update`
property-bag semantics, the route-setting procedure `Route.change`, and a
concrete tower configuration used to reason about panel-driven reachability.

Modelling conventions:
* Python attributes become record fields; Python strings stay `String`.
* A message callback becomes a function from the element state (plus the
  outer-button state where the code consults `Tower.is_outer_button`) to the
  new state.
* An `asyncio` task body is modelled by the code it runs between suspension
  points: spawning a task applies its prefix up to the first `await`
  (which for `Turnout.change` is everything up to the `sleep`), and a
  separate "timer" event applies the suffix after the `sleep`.
* `Route.change` appears twice: `routeChange` and `World.routeRun` run the
  coroutine as one step (the executions in which no other message reaches
  the tower while it is suspended), while `routeChangeStaged` exposes every
  `step_delay`/`asyncio.wait` suspension point and applies an arbitrary
  environment transformer at each of them, so the interleaved executions of
  the source are instances of it.
* Executions start from the post-`reset_all` state: `Tower.run` calls
  `reset_all` once, before any message is dispatched.
-/

/-- `to_bool` from spdrl20.py: the payload strings accepted as true.
(The non-string members of the Python list, `1` and `True`, cannot occur for
decoded MQTT payloads, which are strings.) -/
def to_bool (v : String) : Bool :=
  v ∈ ["1", "t", "T", "true", "True", "y", "yes"]

/-- A published property value: Python `bool`, `str` or `int` as they occur
in the elements' `properties` lists. -/
inductive Value where
  | b (x : Bool)
  | s (x : String)
  | n (x : Nat)
deriving DecidableEq, Repr

/-- One value rendered by `array_to_str`: `bool` via `'{:b}'.format`,
everything else via `str`. -/
def valueToStr : Value → String
  | .b x => if x then "1" else "0"
  | .s x => x
  | .n x => toString x

/-- `array_to_str` from spdrl20.py: comma-join the rendered values. -/
def array_to_str (ary : List Value) : String :=
  String.intercalate "," (ary.map valueToStr)

/-! ## Outer buttons and the chord recognizer -/

/-- The eight outer buttons `Tower.__init__` creates. -/
inductive OBName where
  | AsT | BlGT | ErsGT | FHT | HaGT | SGT | WGT | WHT
deriving DecidableEq, Repr

/-- Pushed state of the eight outer buttons. -/
structure OBs where
  asT : Bool
  blGT : Bool
  ersGT : Bool
  fhT : Bool
  haGT : Bool
  sGT : Bool
  wGT : Bool
  whT : Bool
deriving DecidableEq, Repr

def OBs.pushedOf (ob : OBs) : OBName → Bool
  | .AsT => ob.asT
  | .BlGT => ob.blGT
  | .ErsGT => ob.ersGT
  | .FHT => ob.fhT
  | .HaGT => ob.haGT
  | .SGT => ob.sGT
  | .WGT => ob.wGT
  | .WHT => ob.whT

def OBs.setPushed (ob : OBs) : OBName → Bool → OBs
  | .AsT, v => { ob with asT := v }
  | .BlGT, v => { ob with blGT := v }
  | .ErsGT, v => { ob with ersGT := v }
  | .FHT, v => { ob with fhT := v }
  | .HaGT, v => { ob with haGT := v }
  | .SGT, v => { ob with sGT := v }
  | .WGT, v => { ob with wGT := v }
  | .WHT, v => { ob with whT := v }

def obNameList : List OBName :=
  [.AsT, .BlGT, .ErsGT, .FHT, .HaGT, .SGT, .WGT, .WHT]

/-- `Tower.is_outer_button`: true iff the named outer button is pushed and
no other outer button is pushed. -/
def is_outer_button (ob : OBs) (button : OBName) : Bool :=
  ob.pushedOf button &&
    obNameList.all (fun b => !(ob.pushedOf b) || decide (b = button))

/-- All outer buttons released. -/
def OBs.none : OBs := ⟨false, false, false, false, false, false, false, false⟩

/-! ## Turnout -/

/-- `Turnout` state: `occupied` from the Element base plus
`position, moving, locked, blocked` (property order as published). -/
structure TO where
  occupied : Bool
  position : Bool
  moving : Bool
  locked : Bool
  blocked : Bool
  pushed : Bool
deriving DecidableEq, Repr

/-- The target `start_change` computes: the argument, or the negation of the
current position when called with `None`. -/
def changeTarget (t : TO) (pos : Option Bool) : Bool :=
  pos.getD (!t.position)

/-- `Turnout.change(position)` run to completion: early return when the
target equals the current position; otherwise the position latches, `moving`
goes true, and after `moving_delay` it clears again. -/
def runChangeFull (t : TO) (target : Bool) : TO :=
  if target = t.position then t
  else { t with position := target, moving := false }

/-- `Turnout.change(position)` run up to its `sleep` (the prefix executed
when the task is later cancelled before the delay expires). -/
def runChangeToSleep (t : TO) (target : Bool) : TO :=
  if target = t.position then t
  else { t with position := target, moving := true }

/-- `Turnout.on_button`: store `pushed`, and when the WGT chord condition
holds start a position change.  The returned flag records whether
`start_change(None)` was invoked; when it was, the state reflects the spawned
`change` task up to its sleep. -/
def turnoutOnButton (t : TO) (ob : OBs) (v : String) : TO × Bool :=
  let t := { t with pushed := to_bool v }
  if t.pushed && is_outer_button ob .WGT && !t.locked && !t.blocked && !t.occupied
  then (runChangeToSleep t (changeTarget t none), true)
  else (t, false)

/-- The published (observable) part of a turnout's state, in property order. -/
def TO.observable (t : TO) : Bool × Bool × Bool × Bool × Bool :=
  (t.occupied, t.position, t.moving, t.locked, t.blocked)

/-! ## Element.update: the property-bag semantics -/

/-- `self.__dict__[k] = v`: set the key if present, else add it. -/
def setKey : List (String × Value) → String → Value → List (String × Value)
  | [], k, v => [(k, v)]
  | (k', v') :: rest, k, v =>
      if k' = k then (k, v) :: rest else (k', v') :: setKey rest k v

/-- The loop of `Element.update`: write each keyword argument in order;
raise `KeyError` at the first key not in `properties`.  The error value
carries the attribute dictionary at the moment of the raise (the writes made
so far are kept, since Python mutates `self` in place). -/
def updateFold (props : List String) (st : List (String × Value)) :
    List (String × Value) → Except (List (String × Value)) (List (String × Value))
  | [] => .ok st
  | (k, v) :: rest =>
      if props.contains k then updateFold props (setKey st k v) rest
      else .error st

/-- Outcome of one `Element.update(**kwargs)` call. -/
structure UpdResult where
  state : List (String × Value)
  published : Bool
  raised : Bool
deriving DecidableEq, Repr

/-- `Element.update`: run the write loop; `publish` happens only when the
loop finishes without raising. -/
def elementUpdate (props : List String) (st : List (String × Value))
    (kwargs : List (String × Value)) : UpdResult :=
  match updateFold props st kwargs with
  | .ok st' => ⟨st', true, false⟩
  | .error st' => ⟨st', false, true⟩

/-- `OuterButton.update`: unconditionally raises `KeyError`; nothing is
written or published. -/
def outerButtonUpdate (st : List (String × Value))
    (_kwargs : List (String × Value)) : UpdResult :=
  ⟨st, false, true⟩

/-- `Element.on_occupied`: `update(occupied=to_bool(value))`. -/
def onOccupied (props : List String) (st : List (String × Value))
    (v : String) : UpdResult :=
  elementUpdate props st [("occupied", .b (to_bool v))]

/-- `Signal.__init__` replaces the base property list with `['aspect']`. -/
def signalProperties : List String := ["aspect"]

/-- `DistantSignal.__init__` replaces the base property list with
`['aspect']`. -/
def distantSignalProperties : List String := ["aspect"]

/-- Keyword arguments whose keys are all valid, up to the first invalid one. -/
def validKwPrefix (props : List String) (kwargs : List (String × Value)) :
    List (String × Value) :=
  kwargs.takeWhile (fun kv => props.contains kv.1)

/-- Apply a list of writes in order. -/
def applyKw (st : List (String × Value)) (kw : List (String × Value)) :
    List (String × Value) :=
  kw.foldl (fun s kv => setKey s kv.1 kv.2) st

/-! ## Element states and the publish payloads -/

/-- `Signal` state: `aspect`, the base `pushed` latch, and whether a
`change_alt` task is pending in its sleep. -/
structure Sig where
  aspect : String
  pushed : Bool
  altPending : Bool
deriving DecidableEq, Repr

/-- `Track` state. -/
structure Trk where
  occupied : Bool
  locked : Bool
  pushed : Bool
deriving DecidableEq, Repr

/-- `DistantSignal` state. -/
structure DSig where
  aspect : String
  pushed : Bool
deriving DecidableEq, Repr

/-- `BlockEnd` state. -/
structure BE where
  occupied : Bool
  blocked : Bool
  clearance_lock : Bool
  pushed : Bool
deriving DecidableEq, Repr

/-- `BlockStart` state. -/
structure BS where
  occupied : Bool
  blocked : Bool
  pushed : Bool
deriving DecidableEq, Repr

/-- `Counter` state. -/
structure Cnt where
  count : Nat
deriving DecidableEq, Repr

/-- An element of any kind, as far as publishing is concerned.  For a
`DistantSignal` the second component is `some a` when the signal is mounted
at a home signal whose current published value is `a` (`mounted_at.value`),
and `none` when `mounted_at is None`. -/
inductive Elem where
  | track (t : Trk)
  | turnout (t : TO)
  | signal (s : Sig)
  | distant (d : DSig) (mountedValue : Option String)
  | blockEnd (b : BE)
  | blockStart (b : BS)
  | counter (c : Cnt)
  | outer
deriving DecidableEq, Repr

/-- The element's current property values, in the declared order of its
`properties` list. -/
def Elem.propVals : Elem → List Value
  | .track t => [.b t.occupied, .b t.locked]
  | .turnout t => [.b t.occupied, .b t.position, .b t.moving, .b t.locked, .b t.blocked]
  | .signal s => [.s s.aspect]
  | .distant d _ => [.s d.aspect]
  | .blockEnd b => [.b b.occupied, .b b.blocked, .b b.clearance_lock]
  | .blockStart b => [.b b.occupied, .b b.blocked]
  | .counter c => [.n c.count]
  | .outer => []

/-- The payload one `publish()` call sends to the broker on
`panel/<kind>/<name>`: `Element.publish` sends `self.value`;
`DistantSignal.publish` sends the literal `-` when mounted at a home signal
showing Hp0; `OuterButton.publish` is a no-op and sends nothing. -/
def Elem.publishPayload : Elem → Option String
  | .distant d m =>
      if m = some "Hp0" then some "-" else some (array_to_str [.s d.aspect])
  | .outer => none
  | e => some (array_to_str e.propVals)

/-! ## BlockEnd -/

/-- The messages a `BlockEnd` reacts to.  `button` carries the outer-button
state the tower holds when the panel button message arrives. -/
inductive BEEv where
  | blockStartMsg (v : String)
  | button (ob : OBs) (v : String)
  | clearanceRelease (v : String)
  | occupiedMsg (v : String)
deriving DecidableEq, Repr

/-- One `BlockEnd` callback dispatch, faithful to `on_block_start`,
`on_button`, `on_clearance_lock_release` and the inherited `on_occupied`. -/
def beStep (b : BE) : BEEv → BE
  | .blockStartMsg v => if to_bool v then { b with blocked := true } else b
  | .button ob v =>
      let b := { b with pushed := to_bool v }
      if b.pushed && is_outer_button ob .BlGT && !b.clearance_lock
      then { b with blocked := false, clearance_lock := true }
      else b
  | .clearanceRelease v =>
      if !to_bool v && b.clearance_lock then { b with clearance_lock := false }
      else b
  | .occupiedMsg v => { b with occupied := to_bool v }

/-- `BlockEnd` state after `reset()` (also the state at the start of
`Tower.run`, which resets all elements before dispatching messages). -/
def beInit : BE := ⟨false, false, true, false⟩

/-! ## Route.change, generic over the route's element lists -/

/-- World a route operates on: turnouts and plain tracks, indexed by number,
plus the entrance signal's aspect and the route's `locked` flag. -/
structure RWorld where
  turnouts : Nat → TO
  tracks : Nat → Trk
  s1aspect : String
  routeLocked : Bool

/-- An entry of `Route.tracks`: `add_turnout` also appends the turnout
itself, `add_track` appends a plain track. -/
inductive TrackRef where
  | turnout (i : Nat)
  | plain (i : Nat)
deriving DecidableEq, Repr

def RWorld.setTurnout (w : RWorld) (i : Nat) (t : TO) : RWorld :=
  { w with turnouts := fun j => if j = i then t else w.turnouts j }

def RWorld.setTrack (w : RWorld) (i : Nat) (t : Trk) : RWorld :=
  { w with tracks := fun j => if j = i then t else w.tracks j }

def RWorld.refOccupied (w : RWorld) : TrackRef → Bool
  | .turnout i => (w.turnouts i).occupied
  | .plain i => (w.tracks i).occupied

def RWorld.lockRef (w : RWorld) : TrackRef → RWorld
  | .turnout i => w.setTurnout i { w.turnouts i with locked := true }
  | .plain i => w.setTrack i { w.tracks i with locked := true }

/-- Step 1 of `Route.change`: every listed turnout unlocked and unoccupied. -/
def proveTurnoutsFree (w : RWorld) (pairs : List (Nat × Bool)) : Bool :=
  pairs.all fun p => !(w.turnouts p.1).locked && !(w.turnouts p.1).occupied

/-- Step 2: `start_change(position)` for each turnout, with all spawned
`change` tasks awaited (`asyncio.wait`), so each turnout ends at the required
position with `moving` cleared when it had to move. -/
def moveTurnouts (w : RWorld) (pairs : List (Nat × Bool)) : RWorld :=
  pairs.foldl (fun w p => w.setTurnout p.1 (runChangeFull (w.turnouts p.1) p.2)) w

/-- Step 4: set `locked` on each listed turnout. -/
def lockTurnouts (w : RWorld) (pairs : List (Nat × Bool)) : RWorld :=
  pairs.foldl (fun w p => w.setTurnout p.1 { w.turnouts p.1 with locked := true }) w

/-- Step 5 check: every entry of `tracks` unoccupied. -/
def tracksFree (w : RWorld) (refs : List TrackRef) : Bool :=
  refs.all fun r => !w.refOccupied r

/-- Step 6: set `locked` on each entry of `tracks`. -/
def lockTracks (w : RWorld) (refs : List TrackRef) : RWorld :=
  refs.foldl (fun w r => w.lockRef r) w

/-- How one `Route.change()` coroutine ended. -/
inductive RouteOutcome where
  | abortTurnoutBusy
  | abortTurnoutOccupied
  | abortTrackOccupied
  | success
deriving DecidableEq, Repr

/-- `Route.change()` run to its end, for a route with turnout list `ts`,
flank-protection list `fs` (each `(index, required_position)`) and track
list `trks`.  The loops abort at the first violating element; since the
aborting checks make no writes, checking all entries first is equivalent. -/
def routeChange (w : RWorld) (ts fs : List (Nat × Bool)) (trks : List TrackRef) :
    RWorld × RouteOutcome :=
  let pairs := ts ++ fs
  if !proveTurnoutsFree w pairs then (w, .abortTurnoutBusy)
  else
    let w1 := moveTurnouts w pairs
    if !(pairs.all fun p => !(w1.turnouts p.1).occupied) then
      (w1, .abortTurnoutOccupied)
    else
      let w2 := lockTurnouts w1 pairs
      if !tracksFree w2 trks then (w2, .abortTrackOccupied)
      else
        let w3 := lockTracks w2 trks
        ({ w3 with s1aspect := "Hp1", routeLocked := true }, .success)

/-! ## Route.change with its suspension points exposed

`routeChangeStaged` renders `Route.change` with every `await` visible: the
`step_delay` sleep after each `start_change` dispatch and after each lock,
and the `asyncio.wait` join of the turnout motion tasks.  At the `k`-th
suspension point an arbitrary state transformer `f k` is applied.  The
transformer over-approximates whatever the dispatcher delivers while the
coroutine is suspended (panel chords, trackside occupancy, a
release-triggered `unlock`, and the net effect of any turnout tasks those
callbacks cancel or spawn), so every interleaved execution of the source is
an instance of some `f`.  `noInterference` is the environment that delivers
nothing. -/

/-- The environment that dispatches no message during the route run. -/
def noInterference : Nat → RWorld → RWorld := fun _ w => w

/-- The move loop of `Route.change`: for each `(turnout, required_position)`
pair, `start_change(position)` spawns the turnout's `change` task (whose
prefix up to the motion sleep runs during the following `step_delay`: the
position latches and `moving` goes true), then the coroutine suspends.
Returns the state, the next suspension-point index, and the spawned tasks
as `(index, did_move)` records — `did_move` is false when `change`
early-returns because the turnout already stands at the required
position. -/
def stageMove (f : Nat → RWorld → RWorld) :
    List (Nat × Bool) → Nat → RWorld → RWorld × Nat × List (Nat × Bool)
  | [], k, w => (w, k, [])
  | (i, p) :: rest, k, w =>
      let t := w.turnouts i
      let moved := decide (¬p = t.position)
      let w := w.setTurnout i (runChangeToSleep t p)
      let w := f k w
      let r := stageMove f rest (k + 1) w
      (r.1, r.2.1, (i, moved) :: r.2.2)

/-- The tail of each spawned `change` task after its motion sleep, run when
`asyncio.wait(tasks)` returns: tasks that moved clear `moving`;
early-returned tasks touch nothing. -/
def finishMoves (w : RWorld) : List (Nat × Bool) → RWorld
  | [] => w
  | (i, moved) :: rest =>
      finishMoves
        (if moved then w.setTurnout i { w.turnouts i with moving := false } else w)
        rest

/-- The lock-turnouts loop: set `locked` on each pair, suspending for
`step_delay` after each lock. -/
def stageLockTurnouts (f : Nat → RWorld → RWorld) :
    List (Nat × Bool) → Nat → RWorld → RWorld × Nat
  | [], k, w => (w, k)
  | (i, _) :: rest, k, w =>
      stageLockTurnouts f rest (k + 1)
        (f k (w.setTurnout i { w.turnouts i with locked := true }))

/-- The lock-tracks loop: set `locked` on each `tracks` entry, suspending
for `step_delay` after each lock. -/
def stageLockTracks (f : Nat → RWorld → RWorld) :
    List TrackRef → Nat → RWorld → RWorld × Nat
  | [], k, w => (w, k)
  | r :: rest, k, w => stageLockTracks f rest (k + 1) (f k (w.lockRef r))

/-- `Route.change()` with its suspension points exposed: prove turnouts
free, issue the moves (suspending after each dispatch), suspend in
`asyncio.wait` (after which the motion tasks' tails run), re-prove
occupancy, lock turnouts (suspending after each), prove tracks, lock tracks
(suspending after each), then clear `s1` and set the route's flag.  `f k`
is the environment's effect at the `k`-th suspension point. -/
def routeChangeStaged (w : RWorld) (ts fs : List (Nat × Bool))
    (trks : List TrackRef) (f : Nat → RWorld → RWorld) :
    RWorld × RouteOutcome :=
  let pairs := ts ++ fs
  if !proveTurnoutsFree w pairs then (w, .abortTurnoutBusy)
  else
    let m := stageMove f pairs 0 w
    let w1 := finishMoves (f m.2.1 m.1) m.2.2
    if !(pairs.all fun p => !(w1.turnouts p.1).occupied) then
      (w1, .abortTurnoutOccupied)
    else
      let l := stageLockTurnouts f pairs (m.2.1 + 1) w1
      if !tracksFree l.1 trks then (l.1, .abortTrackOccupied)
      else
        let l2 := stageLockTracks f trks l.2 l.1
        ({ l2.1 with s1aspect := "Hp1", routeLocked := true }, .success)

/-! ## A concrete tower

The reachability claims are settled over a concrete tower configuration
built exactly as the module's constructors allow:

* home signals `P1` (backgrounds Hp0/Hp1/Hp2, Sh1 and Zs1 added), `P2` and
  `G` (home backgrounds only);
* distant signal `d` with `home='P1'` and `mounted_at='G'`;
* turnouts `W1`, `W2`; plain track `T1`;
* one route `Route(tower, 'P1', 'P2', ...)` with `add_turnout(W1, False)`,
  `add_flank_protection(W2, False)`, `add_track(T1)` (so its `tracks` list
  is `[W1, T1]`);
* the eight outer buttons of `Tower.__init__`.

`dLast` records the payload of the most recent broker publish on
`panel/signal/d`; the counters record the FHT and ErsGT counter values. -/

inductive SigName where
  | P1 | P2 | G
deriving DecidableEq, Repr

inductive TOName where
  | W1 | W2
deriving DecidableEq, Repr

/-- Names subscribed to a `trackside/track/<name>` topic. -/
inductive OccName where
  | W1 | W2 | T1 | P1 | P2 | G | D
deriving DecidableEq, Repr

structure World where
  p1 : Sig
  p2 : Sig
  g : Sig
  w1 : TO
  w2 : TO
  t1 : Trk
  d : DSig
  ob : OBs
  routeLocked : Bool
  dLast : Option String
  fhtCount : Nat
  ersgtCount : Nat
deriving DecidableEq, Repr

/-- The `aspects` list each signal was configured with. -/
def sigAspects : SigName → List String
  | .P1 => ["Hp0", "Hp1", "Hp2", "Sh1", "Zs1"]
  | .P2 => ["Hp0", "Hp1", "Hp2"]
  | .G => ["Hp0", "Hp1", "Hp2"]

def World.sigOf (w : World) : SigName → Sig
  | .P1 => w.p1
  | .P2 => w.p2
  | .G => w.g

def World.setSig (w : World) : SigName → Sig → World
  | .P1, s => { w with p1 := s }
  | .P2, s => { w with p2 := s }
  | .G, s => { w with g := s }

def World.toOf (w : World) : TOName → TO
  | .W1 => w.w1
  | .W2 => w.w2

def World.setTO (w : World) : TOName → TO → World
  | .W1, t => { w with w1 := t }
  | .W2, t => { w with w2 := t }

/-- `DistantSignal.translated_aspects` applied as in `start_distant`: Hp
aspects map to their Vr counterparts, anything else passes through. -/
def translateAspect (a : String) : String :=
  if a = "Hp0" then "Vr0"
  else if a = "Hp1" then "Vr1"
  else if a = "Hp2" then "Vr2"
  else a

/-- `DistantSignal.publish` for `d`: the literal `-` when the mast signal
`G` shows Hp0, otherwise `d`'s value. -/
def World.publishDistant (w : World) : World :=
  { w with dLast := some (if w.g.aspect = "Hp0" then "-" else w.d.aspect) }

/-- `P1.update(aspect=a)`: the publish fires `P1.on_update`, whose single
subscriber is `d`'s `start_distant`; that updates `d.aspect` through the
translation table and republishes `d`. -/
def World.setP1Aspect (w : World) (a : String) : World :=
  let w := { w with p1 := { w.p1 with aspect := a } }
  let w := { w with d := { w.d with aspect := translateAspect a } }
  w.publishDistant

/-- `G.update(aspect=a)`: the publish fires `G.on_update`, whose single
subscriber is `d`'s `mounted_at_changed`, which republishes `d`. -/
def World.setGAspect (w : World) (a : String) : World :=
  ({ w with g := { w.g with aspect := a } }).publishDistant

/-- `P2.update(aspect=a)`: no subscribers. -/
def World.setP2Aspect (w : World) (a : String) : World :=
  { w with p2 := { w.p2 with aspect := a } }

def World.setSigAspect (w : World) : SigName → String → World
  | .P1, a => w.setP1Aspect a
  | .P2, a => w.setP2Aspect a
  | .G, a => w.setGAspect a

def World.setAltPending (w : World) (n : SigName) (v : Bool) : World :=
  w.setSig n { w.sigOf n with altPending := v }

def World.setSigPushed (w : World) (n : SigName) (v : Bool) : World :=
  w.setSig n { w.sigOf n with pushed := v }

/-- `Signal.start_change_shunting`. -/
def World.startShunting (w : World) (n : SigName) : World :=
  if "Sh1" ∈ sigAspects n ∧ (w.sigOf n).aspect = "Hp0"
  then w.setSigAspect n "Sh1" else w

/-- `Signal.start_halt`: cancel any pending task, then drop to Hp0 when not
already there. -/
def World.startHalt (w : World) (n : SigName) : World :=
  let w := w.setAltPending n false
  if (w.sigOf n).aspect ≠ "Hp0" then w.setSigAspect n "Hp0" else w

/-- `Signal.start_alt`: when Zs1 is configured and the signal shows Hp0,
restart the `change_alt` task (whose body immediately shows Zs1 and, after
`alt_delay`, returns to Hp0 — see `altExpire`) and increment the ErsGT
counter. -/
def World.startAlt (w : World) (n : SigName) : World :=
  if "Zs1" ∈ sigAspects n ∧ (w.sigOf n).aspect = "Hp0" then
    let w := (w.setAltPending n true).setSigAspect n "Zs1"
    { w with ersgtCount := w.ersgtCount + 1 }
  else w

/-- The tail of `Signal.change_alt` after its sleep, when the task was not
cancelled in the meantime. -/
def World.altExpire (w : World) (n : SigName) : World :=
  if (w.sigOf n).altPending then (w.setAltPending n false).setSigAspect n "Hp0"
  else w

/-- `Route.unlock` for the route `P1,P2`: `s1.start_home('Hp0')`, then clear
`locked` on `W1`, `W2` (turnouts and flank protections) and on the `tracks`
entries `W1`, `T1`; finally clear the route's own flag. -/
def World.routeUnlock (w : World) : World :=
  let w := w.setP1Aspect "Hp0"
  let w := { w with w1 := { w.w1 with locked := false } }
  let w := { w with w2 := { w.w2 with locked := false } }
  let w := { w with w1 := { w.w1 with locked := false } }
  let w := { w with t1 := { w.t1 with locked := false } }
  { w with routeLocked := false }

/-- The FHT branch of `Signal.on_button`: unlock the first registered locked
route whose `s1` is this signal, incrementing the FHT counter. -/
def World.fhtPress (w : World) (n : SigName) : World :=
  if n = SigName.P1 ∧ w.routeLocked then
    let w := { w with fhtCount := w.fhtCount + 1 }
    w.routeUnlock
  else w

/-- `Route.change()` for the route `P1,P2` (turnouts `[(W1, False)]`, flank
protections `[(W2, False)]`, tracks `[W1, T1]`), run to its end as one step:
the execution in which no other message is dispatched while the coroutine
sits at one of its `step_delay`/`asyncio.wait` suspension points.  (Such a
run is one real scheduling of the source; `routeChangeStaged` below models
the suspension points explicitly, and with interference present the
completion state can differ — see `route_change_interference_wrong_position`.) -/
def World.routeRun (w : World) : World :=
  if w.w1.locked || w.w1.occupied || w.w2.locked || w.w2.occupied then w
  else
    let w := { w with w1 := runChangeFull w.w1 false, w2 := runChangeFull w.w2 false }
    if w.w1.occupied || w.w2.occupied then w
    else
      let w := { w with w1 := { w.w1 with locked := true },
                        w2 := { w.w2 with locked := true } }
      if w.w1.occupied || w.t1.occupied then w
      else
        let w := { w with w1 := { w.w1 with locked := true },
                          t1 := { w.t1 with locked := true } }
        let w := w.setP1Aspect "Hp1"
        { w with routeLocked := true }

/-- `Signal.on_button`: store `pushed`; when pushed, dispatch on the outer
buttons in the order the code checks them; otherwise run the two-signal
chord detection, which starts the only registered route when exactly the
pair `P1`, `P2` is pushed. -/
def World.sigButton (w : World) (n : SigName) (v : String) : World :=
  let pushed := to_bool v
  let w := w.setSigPushed n pushed
  if pushed then
    if is_outer_button w.ob .SGT then w.startShunting n
    else if is_outer_button w.ob .HaGT then w.startHalt n
    else if is_outer_button w.ob .ErsGT then w.startAlt n
    else if is_outer_button w.ob .FHT then w.fhtPress n
    else if w.p1.pushed && w.p2.pushed && !w.g.pushed then w.routeRun
    else w
  else w

/-- `Turnout.on_button` inside the tower (see `turnoutOnButton`). -/
def World.turnoutButton (w : World) (n : TOName) (v : String) : World :=
  w.setTO n (turnoutOnButton (w.toOf n) w.ob v).1

/-- `Element.on_occupied` dispatched by element name: turnouts and tracks
store and publish the flag; for `P1`, `P2`, `G` and `d` the
`update(occupied=...)` call raises `KeyError` (their `properties` list is
`['aspect']`), so their state is unchanged. -/
def World.occMsg (w : World) (n : OccName) (v : String) : World :=
  match n with
  | .W1 => { w with w1 := { w.w1 with occupied := to_bool v } }
  | .W2 => { w with w2 := { w.w2 with occupied := to_bool v } }
  | .T1 => { w with t1 := { w.t1 with occupied := to_bool v } }
  | .P1 => w
  | .P2 => w
  | .G => w
  | .D => w

/-- The messages the concrete tower can receive, plus the timer completions
of the spawned tasks. -/
inductive Ev where
  | outerBtn (b : OBName) (v : String)
  | sigBtn (n : SigName) (v : String)
  | turnoutBtn (n : TOName) (v : String)
  | trackBtn (v : String)
  | distantBtn (v : String)
  | occ (n : OccName) (v : String)
  | releaseMsg (v : String)
  | moveExpire (n : TOName)
  | altExpire (n : SigName)
deriving DecidableEq, Repr

/-- One dispatched message or timer completion. -/
def World.step (w : World) : Ev → World
  | .outerBtn b v => { w with ob := w.ob.setPushed b (to_bool v) }
  | .sigBtn n v => w.sigButton n v
  | .turnoutBtn n v => w.turnoutButton n v
  | .trackBtn v => { w with t1 := { w.t1 with pushed := to_bool v } }
  | .distantBtn v => { w with d := { w.d with pushed := to_bool v } }
  | .occ n v => w.occMsg n v
  | .releaseMsg v => if to_bool v then w else w.routeUnlock
  | .moveExpire n => w.setTO n { w.toOf n with moving := false }
  | .altExpire n => w.altExpire n

/-- The world right after `Tower.run` has reset every element: all aspects
Hp0, `d` at Vr0 with `-` as its last payload (its mast signal shows Hp0),
turnouts and track fully clear, route unlocked, counters zero. -/
def initWorld : World where
  p1 := ⟨"Hp0", false, false⟩
  p2 := ⟨"Hp0", false, false⟩
  g := ⟨"Hp0", false, false⟩
  w1 := ⟨false, false, false, false, false, false⟩
  w2 := ⟨false, false, false, false, false, false⟩
  t1 := ⟨false, false, false⟩
  d := ⟨"Vr0", false⟩
  ob := OBs.none
  routeLocked := false
  dLast := some "-"
  fhtCount := 0
  ersgtCount := 0

/-- Run a list of messages. -/
def World.run (w : World) : List Ev → World
  | [] => w
  | e :: es => (w.step e).run es

/-- States reachable from the reset state through dispatched messages. -/
inductive Reachable : World → Prop
  | init : Reachable initWorld
  | step {w : World} (e : Ev) : Reachable w → Reachable (w.step e)

/-! ## Concrete executions and states used below -/

/-- Message sequence: chord `P1`+`P2` (locks the route), release both
buttons, push `HaGT`, then the `P1` button (the HaGT chord). -/
def c1Trace : List Ev :=
  [.sigBtn .P1 "1", .sigBtn .P2 "1", .sigBtn .P1 "0", .sigBtn .P2 "0",
   .outerBtn .HaGT "1", .sigBtn .P1 "1"]

/-- Message sequence that locks the route: chord `P1`+`P2`. -/
def lockTrace : List Ev := [.sigBtn .P1 "1", .sigBtn .P2 "1"]

/-- Message sequence: push `SGT`, then the `P1` button (the shunting chord). -/
def shuntTrace : List Ev := [.outerBtn .SGT "1", .sigBtn .P1 "1"]

/-- Outer-button state with only `BlGT` pushed. -/
def obBlGT : OBs := ⟨false, true, false, false, false, false, false, false⟩

/-- A `BlockEnd` that is blocked and whose clearance lock has been released. -/
def beBlocked : BE := ⟨false, true, false, false⟩

/-- A turnout with every flag clear. -/
def toClear : TO := ⟨false, false, false, false, false, false⟩

/-- Route world for exercising `routeChange`: all turnouts clear, every
plain track occupied. -/
def rwOccupiedTrack : RWorld where
  turnouts := fun _ => toClear
  tracks := fun _ => ⟨true, false, false⟩
  s1aspect := "Hp0"
  routeLocked := false

/-- Route world with every turnout and track clear. -/
def rwClear : RWorld where
  turnouts := fun _ => toClear
  tracks := fun _ => ⟨false, false, false⟩
  s1aspect := "Hp0"
  routeLocked := false

/-- Outer-button state with only `WGT` pushed. -/
def obWGT : OBs := ⟨false, false, false, false, false, false, true, false⟩

/-- Environment that delivers exactly one message during the route run: a
WGT+turnout chord for turnout `i`, dispatched at suspension point `k0`. -/
def wgtChordAt (k0 i : Nat) : Nat → RWorld → RWorld := fun k w =>
  if k = k0 then w.setTurnout i (turnoutOnButton (w.turnouts i) obWGT "1").1
  else w

/-- `Track.properties` (`['occupied', 'locked']`). -/
def trackProperties : List String := ["occupied", "locked"]

/-- A `Track`'s attribute dictionary, all clear. -/
def trackDict : List (String × Value) := [("occupied", .b false), ("locked", .b false)]

/-- Keyword arguments with a valid key followed by an invalid one. -/
def badKwargs : List (String × Value) := [("occupied", .b true), ("bogus", .s "x")]

/-! ## Invariants of the concrete tower -/

/-- While the mast signal `G` shows Hp0, the last payload published on
`panel/signal/d` is the literal `-`. -/
def DMountInv (w : World) : Prop :=
  w.g.aspect = "Hp0" → w.dLast = some "-"

/-- The stored aspect of the distant signal stays in the image of
`translateAspect` over the aspects its home signal can show. -/
def DAspectInv (w : World) : Prop :=
  w.d.aspect ∈ ["Vr0", "Vr1", "Vr2", "Sh1", "Zs1"]

/-! ## Helper lemmas -/

theorem reachable_run (w : World) (h : Reachable w) :
    ∀ es : List Ev, Reachable (w.run es)
  | [] => h
  | e :: es => reachable_run (w.step e) (Reachable.step e h) es

theorem setTurnout_turnouts (w : RWorld) (i : Nat) (t : TO) (j : Nat) :
    ((w.setTurnout i t).turnouts j) = if j = i then t else w.turnouts j := rfl

theorem runChangeToSleep_position (t : TO) (b : Bool) :
    (runChangeToSleep t b).position = b := by
  unfold runChangeToSleep
  split
  · rename_i h
    exact h.symm
  · rfl

theorem stageMove_noI_other (pairs : List (Nat × Bool)) (k : Nat) (w : RWorld)
    (i : Nat) (hi : ¬i ∈ pairs.map Prod.fst) :
    (stageMove noInterference pairs k w).1.turnouts i = w.turnouts i := by
  induction pairs generalizing k w with
  | nil => rfl
  | cons q rest ih =>
      obtain ⟨j, p⟩ := q
      simp only [List.map_cons, List.mem_cons] at hi
      push_neg at hi
      have hstep : (stageMove noInterference ((j, p) :: rest) k w).1
          = (stageMove noInterference rest (k + 1)
              (w.setTurnout j (runChangeToSleep (w.turnouts j) p))).1 := rfl
      rw [hstep, ih _ _ hi.2, setTurnout_turnouts]
      simp [hi.1]

theorem stageMove_noI_position (pairs : List (Nat × Bool))
    (hnd : (pairs.map Prod.fst).Nodup) (k : Nat) (w : RWorld) :
    ∀ p ∈ pairs,
      ((stageMove noInterference pairs k w).1.turnouts p.1).position = p.2 := by
  induction pairs generalizing k w with
  | nil => intro p hp; cases hp
  | cons q rest ih =>
      obtain ⟨j, pos⟩ := q
      simp only [List.map_cons, List.nodup_cons] at hnd
      intro p hp
      have hstep : (stageMove noInterference ((j, pos) :: rest) k w).1
          = (stageMove noInterference rest (k + 1)
              (w.setTurnout j (runChangeToSleep (w.turnouts j) pos))).1 := rfl
      rcases List.mem_cons.mp hp with rfl | hmem
      · rw [hstep, stageMove_noI_other rest _ _ j hnd.1, setTurnout_turnouts]
        simp [runChangeToSleep_position]
      · rw [hstep]
        exact ih hnd.2 _ _ p hmem

theorem finishMoves_position (recs : List (Nat × Bool)) (w : RWorld) (i : Nat) :
    ((finishMoves w recs).turnouts i).position = (w.turnouts i).position := by
  induction recs generalizing w with
  | nil => rfl
  | cons q rest ih =>
      obtain ⟨j, moved⟩ := q
      cases moved with
      | false => exact ih w
      | true =>
          have hstep : finishMoves w ((j, true) :: rest)
              = finishMoves (w.setTurnout j { w.turnouts j with moving := false })
                  rest := rfl
          rw [hstep, ih, setTurnout_turnouts]
          split
          · rename_i h
            subst h
            rfl
          · rfl

theorem stageLockTurnouts_noI_position (pairs : List (Nat × Bool)) (k : Nat)
    (w : RWorld) (i : Nat) :
    ((stageLockTurnouts noInterference pairs k w).1.turnouts i).position
      = (w.turnouts i).position := by
  induction pairs generalizing k w with
  | nil => rfl
  | cons q rest ih =>
      obtain ⟨j, p⟩ := q
      have hstep : stageLockTurnouts noInterference ((j, p) :: rest) k w
          = stageLockTurnouts noInterference rest (k + 1)
              (w.setTurnout j { w.turnouts j with locked := true }) := rfl
      rw [hstep, ih, setTurnout_turnouts]
      split
      · rename_i h
        subst h
        rfl
      · rfl

theorem stageLockTurnouts_noI_locked_mono (pairs : List (Nat × Bool)) (k : Nat)
    (w : RWorld) (i : Nat) (h : (w.turnouts i).locked = true) :
    ((stageLockTurnouts noInterference pairs k w).1.turnouts i).locked = true := by
  induction pairs generalizing k w with
  | nil => exact h
  | cons q rest ih =>
      obtain ⟨j, p⟩ := q
      have hstep : stageLockTurnouts noInterference ((j, p) :: rest) k w
          = stageLockTurnouts noInterference rest (k + 1)
              (w.setTurnout j { w.turnouts j with locked := true }) := rfl
      rw [hstep]
      apply ih
      rw [setTurnout_turnouts]
      split
      · rfl
      · exact h

theorem stageLockTurnouts_noI_mem_locked (pairs : List (Nat × Bool)) (k : Nat)
    (w : RWorld) :
    ∀ p ∈ pairs,
      ((stageLockTurnouts noInterference pairs k w).1.turnouts p.1).locked
        = true := by
  induction pairs generalizing k w with
  | nil => intro p hp; cases hp
  | cons q rest ih =>
      obtain ⟨j, pos⟩ := q
      intro p hp
      have hstep : stageLockTurnouts noInterference ((j, pos) :: rest) k w
          = stageLockTurnouts noInterference rest (k + 1)
              (w.setTurnout j { w.turnouts j with locked := true }) := rfl
      rw [hstep]
      rcases List.mem_cons.mp hp with rfl | hmem
      · apply stageLockTurnouts_noI_locked_mono
        rw [setTurnout_turnouts]
        simp
      · exact ih _ _ p hmem

theorem stageLockTracks_noI_position (trks : List TrackRef) (k : Nat)
    (w : RWorld) (i : Nat) :
    ((stageLockTracks noInterference trks k w).1.turnouts i).position
      = (w.turnouts i).position := by
  induction trks generalizing k w with
  | nil => rfl
  | cons r rest ih =>
      have hstep : stageLockTracks noInterference (r :: rest) k w
          = stageLockTracks noInterference rest (k + 1) (w.lockRef r) := rfl
      rw [hstep, ih]
      cases r with
      | turnout j =>
          show ((w.setTurnout j _).turnouts i).position = _
          rw [setTurnout_turnouts]
          split
          · rename_i h
            subst h
            rfl
          · rfl
      | plain j => rfl

theorem stageLockTracks_noI_locked_mono (trks : List TrackRef) (k : Nat)
    (w : RWorld) (i : Nat) (h : (w.turnouts i).locked = true) :
    ((stageLockTracks noInterference trks k w).1.turnouts i).locked = true := by
  induction trks generalizing k w with
  | nil => exact h
  | cons r rest ih =>
      have hstep : stageLockTracks noInterference (r :: rest) k w
          = stageLockTracks noInterference rest (k + 1) (w.lockRef r) := rfl
      rw [hstep]
      apply ih
      cases r with
      | turnout j =>
          show ((w.setTurnout j _).turnouts i).locked = true
          rw [setTurnout_turnouts]
          split
          · rfl
          · exact h
      | plain j => exact h

theorem dmount_congr {w w' : World} (hg : w'.g.aspect = w.g.aspect)
    (hd : w'.dLast = w.dLast) (h : DMountInv w) : DMountInv w' := by
  intro hx
  rw [hg] at hx
  rw [hd]
  exact h hx

theorem dmount_publishDistant (w : World) : DMountInv (w.publishDistant) := by
  intro hx
  have hg : w.g.aspect = "Hp0" := hx
  show some (if w.g.aspect = "Hp0" then "-" else w.d.aspect) = some "-"
  rw [hg]
  simp

theorem dmount_setSigAspect (w : World) (n : SigName) (a : String)
    (h : DMountInv w) : DMountInv (w.setSigAspect n a) := by
  cases n with
  | P1 => exact dmount_publishDistant _
  | P2 => exact dmount_congr rfl rfl h
  | G => exact dmount_publishDistant _

theorem dmount_startShunting (w : World) (n : SigName)
    (h : DMountInv w) : DMountInv (w.startShunting n) := by
  unfold World.startShunting
  split
  · exact dmount_setSigAspect _ _ _ h
  · exact h

theorem dmount_setAltPending (w : World) (n : SigName) (b : Bool)
    (h : DMountInv w) : DMountInv (w.setAltPending n b) := by
  cases n <;> exact dmount_congr rfl rfl h

theorem dmount_setSigPushed (w : World) (n : SigName) (b : Bool)
    (h : DMountInv w) : DMountInv (w.setSigPushed n b) := by
  cases n <;> exact dmount_congr rfl rfl h

theorem dmount_startHalt (w : World) (n : SigName)
    (h : DMountInv w) : DMountInv (w.startHalt n) := by
  unfold World.startHalt
  dsimp only
  split
  · exact dmount_setSigAspect _ _ _ (dmount_setAltPending _ _ _ h)
  · exact dmount_setAltPending _ _ _ h

theorem dmount_startAlt (w : World) (n : SigName)
    (h : DMountInv w) : DMountInv (w.startAlt n) := by
  unfold World.startAlt
  dsimp only
  split
  · exact dmount_congr rfl rfl
      (dmount_setSigAspect _ _ _ (dmount_setAltPending _ _ _ h))
  · exact h

theorem dmount_altExpire (w : World) (n : SigName)
    (h : DMountInv w) : DMountInv (w.altExpire n) := by
  unfold World.altExpire
  split
  · exact dmount_setSigAspect _ _ _ (dmount_setAltPending _ _ _ h)
  · exact h

theorem dmount_routeUnlock (w : World) : DMountInv (w.routeUnlock) := by
  unfold World.routeUnlock World.setP1Aspect
  dsimp only
  exact dmount_congr rfl rfl (dmount_publishDistant _)

theorem dmount_fhtPress (w : World) (n : SigName)
    (h : DMountInv w) : DMountInv (w.fhtPress n) := by
  unfold World.fhtPress
  split
  · exact dmount_routeUnlock _
  · exact h

theorem dmount_routeRun (w : World) (h : DMountInv w) :
    DMountInv (w.routeRun) := by
  unfold World.routeRun
  dsimp only
  split
  · exact h
  · split
    · exact dmount_congr rfl rfl h
    · split
      · exact dmount_congr rfl rfl h
      · unfold World.setP1Aspect
        dsimp only
        exact dmount_congr rfl rfl (dmount_publishDistant _)

theorem dmount_step (w : World) (e : Ev) (h : DMountInv w) :
    DMountInv (w.step e) := by
  cases e with
  | outerBtn b v => exact dmount_congr rfl rfl h
  | sigBtn n v =>
      show DMountInv (w.sigButton n v)
      unfold World.sigButton
      dsimp only
      have h' := dmount_setSigPushed w n (to_bool v) h
      split
      · split
        · exact dmount_startShunting _ _ h'
        · split
          · exact dmount_startHalt _ _ h'
          · split
            · exact dmount_startAlt _ _ h'
            · split
              · exact dmount_fhtPress _ _ h'
              · split
                · exact dmount_routeRun _ h'
                · exact h'
      · exact h'
  | turnoutBtn n v => cases n <;> exact dmount_congr rfl rfl h
  | trackBtn v => exact dmount_congr rfl rfl h
  | distantBtn v => exact dmount_congr rfl rfl h
  | occ n v => cases n <;> exact dmount_congr rfl rfl h
  | releaseMsg v =>
      show DMountInv (if to_bool v = true then w else w.routeUnlock)
      split
      · exact h
      · exact dmount_routeUnlock _
  | moveExpire n => cases n <;> exact dmount_congr rfl rfl h
  | altExpire n => exact dmount_altExpire _ _ h

theorem reachable_dmount (w : World) (h : Reachable w) : DMountInv w := by
  induction h with
  | init => intro _; rfl
  | step e _ ih => exact dmount_step _ e ih

theorem daspect_congr {w w' : World} (hd : w'.d.aspect = w.d.aspect)
    (h : DAspectInv w) : DAspectInv w' := by
  unfold DAspectInv
  rw [hd]
  exact h

theorem daspect_setP1Aspect (w : World) (a : String)
    (ha : translateAspect a ∈ ["Vr0", "Vr1", "Vr2", "Sh1", "Zs1"]) :
    DAspectInv (w.setP1Aspect a) := by
  show translateAspect a ∈ _
  exact ha

theorem daspect_setSigAspect (w : World) (n : SigName) (a : String)
    (ha : translateAspect a ∈ ["Vr0", "Vr1", "Vr2", "Sh1", "Zs1"])
    (h : DAspectInv w) : DAspectInv (w.setSigAspect n a) := by
  cases n with
  | P1 => exact daspect_setP1Aspect _ _ ha
  | P2 => exact daspect_congr rfl h
  | G => exact daspect_congr rfl h

theorem daspect_setAltPending (w : World) (n : SigName) (b : Bool)
    (h : DAspectInv w) : DAspectInv (w.setAltPending n b) := by
  cases n <;> exact daspect_congr rfl h

theorem daspect_setSigPushed (w : World) (n : SigName) (b : Bool)
    (h : DAspectInv w) : DAspectInv (w.setSigPushed n b) := by
  cases n <;> exact daspect_congr rfl h

theorem daspect_startShunting (w : World) (n : SigName)
    (h : DAspectInv w) : DAspectInv (w.startShunting n) := by
  unfold World.startShunting
  split
  · exact daspect_setSigAspect _ _ _ (by decide) h
  · exact h

theorem daspect_startHalt (w : World) (n : SigName)
    (h : DAspectInv w) : DAspectInv (w.startHalt n) := by
  unfold World.startHalt
  dsimp only
  split
  · exact daspect_setSigAspect _ _ _ (by decide) (daspect_setAltPending _ _ _ h)
  · exact daspect_setAltPending _ _ _ h

theorem daspect_startAlt (w : World) (n : SigName)
    (h : DAspectInv w) : DAspectInv (w.startAlt n) := by
  unfold World.startAlt
  dsimp only
  split
  · exact daspect_congr rfl
      (daspect_setSigAspect _ _ _ (by decide) (daspect_setAltPending _ _ _ h))
  · exact h

theorem daspect_altExpire (w : World) (n : SigName)
    (h : DAspectInv w) : DAspectInv (w.altExpire n) := by
  unfold World.altExpire
  split
  · exact daspect_setSigAspect _ _ _ (by decide) (daspect_setAltPending _ _ _ h)
  · exact h

theorem daspect_routeUnlock (w : World) :
    DAspectInv (w.routeUnlock) := by
  unfold World.routeUnlock
  dsimp only
  exact daspect_congr rfl (daspect_setP1Aspect _ _ (by decide))

theorem daspect_fhtPress (w : World) (n : SigName)
    (h : DAspectInv w) : DAspectInv (w.fhtPress n) := by
  unfold World.fhtPress
  split
  · exact daspect_routeUnlock _
  · exact h

theorem daspect_routeRun (w : World) (h : DAspectInv w) :
    DAspectInv (w.routeRun) := by
  unfold World.routeRun
  dsimp only
  split
  · exact h
  · split
    · exact daspect_congr rfl h
    · split
      · exact daspect_congr rfl h
      · exact daspect_congr rfl (daspect_setP1Aspect _ _ (by decide))

theorem daspect_step (w : World) (e : Ev) (h : DAspectInv w) :
    DAspectInv (w.step e) := by
  cases e with
  | outerBtn b v => exact daspect_congr rfl h
  | sigBtn n v =>
      show DAspectInv (w.sigButton n v)
      unfold World.sigButton
      dsimp only
      have h' := daspect_setSigPushed w n (to_bool v) h
      split
      · split
        · exact daspect_startShunting _ _ h'
        · split
          · exact daspect_startHalt _ _ h'
          · split
            · exact daspect_startAlt _ _ h'
            · split
              · exact daspect_fhtPress _ _ h'
              · split
                · exact daspect_routeRun _ h'
                · exact h'
      · exact h'
  | turnoutBtn n v => cases n <;> exact daspect_congr rfl h
  | trackBtn v => exact daspect_congr rfl h
  | distantBtn v => exact daspect_congr rfl h
  | occ n v => cases n <;> exact daspect_congr rfl h
  | releaseMsg v =>
      show DAspectInv (if to_bool v = true then w else w.routeUnlock)
      split
      · exact h
      · exact daspect_routeUnlock _
  | moveExpire n => cases n <;> exact daspect_congr rfl h
  | altExpire n => exact daspect_altExpire _ _ h

theorem reachable_daspect (w : World) (h : Reachable w) : DAspectInv w := by
  induction h with
  | init => show "Vr0" ∈ _; decide
  | step e _ ih => exact daspect_step _ e ih

theorem lockTurnouts_locked_mono (ps : List (Nat × Bool)) (w : RWorld) (i : Nat)
    (h : (w.turnouts i).locked = true) :
    ((lockTurnouts w ps).turnouts i).locked = true := by
  induction ps generalizing w with
  | nil => exact h
  | cons q rest ih =>
      show ((lockTurnouts (w.setTurnout q.1 { w.turnouts q.1 with locked := true })
        rest).turnouts i).locked = true
      apply ih
      rw [setTurnout_turnouts]
      split
      · rfl
      · exact h

theorem lockTurnouts_mem_locked (ps : List (Nat × Bool)) (w : RWorld) :
    ∀ p ∈ ps, ((lockTurnouts w ps).turnouts p.1).locked = true := by
  induction ps generalizing w with
  | nil => intro p hp; cases hp
  | cons q rest ih =>
      intro p hp
      show ((lockTurnouts (w.setTurnout q.1 { w.turnouts q.1 with locked := true })
        rest).turnouts p.1).locked = true
      rcases List.mem_cons.mp hp with hq | hrest
      · subst hq
        apply lockTurnouts_locked_mono
        rw [setTurnout_turnouts]
        simp
      · exact ih _ p hrest

theorem moveTurnouts_routeLocked (ps : List (Nat × Bool)) (w : RWorld) :
    (moveTurnouts w ps).routeLocked = w.routeLocked := by
  induction ps generalizing w with
  | nil => rfl
  | cons q rest ih => exact ih _

theorem moveTurnouts_s1aspect (ps : List (Nat × Bool)) (w : RWorld) :
    (moveTurnouts w ps).s1aspect = w.s1aspect := by
  induction ps generalizing w with
  | nil => rfl
  | cons q rest ih => exact ih _

theorem lockTurnouts_routeLocked (ps : List (Nat × Bool)) (w : RWorld) :
    (lockTurnouts w ps).routeLocked = w.routeLocked := by
  induction ps generalizing w with
  | nil => rfl
  | cons q rest ih => exact ih _

theorem lockTurnouts_s1aspect (ps : List (Nat × Bool)) (w : RWorld) :
    (lockTurnouts w ps).s1aspect = w.s1aspect := by
  induction ps generalizing w with
  | nil => rfl
  | cons q rest ih => exact ih _

theorem updateFold_invalid (props : List String) :
    ∀ (kwargs : List (String × Value)) (st : List (String × Value)),
      kwargs.any (fun kv => !props.contains kv.1) = true →
      updateFold props st kwargs = .error (applyKw st (validKwPrefix props kwargs))
  | [], st, h => by cases h
  | (k, v) :: rest, st, h => by
      unfold updateFold
      split
      · rename_i hk
        have hrest : rest.any (fun kv => !props.contains kv.1) = true := by
          rcases List.any_eq_true.mp h with ⟨kv, hkv, hx⟩
          rcases List.mem_cons.mp hkv with rfl | hm
          · rw [hk] at hx; cases hx
          · exact List.any_eq_true.mpr ⟨kv, hm, hx⟩
        rw [updateFold_invalid props rest (setKey st k v) hrest]
        unfold validKwPrefix
        have hk' : k ∈ props := by simpa using hk
        simp only [List.takeWhile_cons]
        simp [hk', applyKw]
      · unfold validKwPrefix
        rename_i hk
        have hk' : ¬k ∈ props := by simpa using hk
        simp only [List.takeWhile_cons]
        simp [hk', applyKw]

/-! ## Claims -/

/-- C1, counterexample: the claimed invariant "whenever `r.locked`,
`s1.aspect ∈ {Hp1, Hp2}` (and no panel action, including a HaGT chord on
`s1`, can make `s1` show Hp0 while `r.locked` stays true)" is false on the
code: after locking the route via the `P1`+`P2` chord and then pressing
`HaGT` together with `P1`, the reachable state has `routeLocked = true`
while `P1` shows Hp0 — `Signal.start_halt` does not consult the route. -/
theorem route_locked_aspect_counterexample :
    Reachable (initWorld.run c1Trace) ∧
    (initWorld.run c1Trace).routeLocked = true ∧
    (initWorld.run c1Trace).p1.aspect = "Hp0" :=
  ⟨reachable_run initWorld Reachable.init c1Trace, by decide, by decide⟩

/-- C1, amended: the claimed properties hold as the postcondition of an
undisturbed locking run, not as a state invariant.  Whenever `Route.change()`
runs to completion with no other callback dispatched during its
`step_delay`/`asyncio.wait` suspension points (environment
`noInterference`), and the route lists each turnout once, then at completion
every `(turnout, required_position)` pair of `turnouts` and
`flankProtections` is locked at its required position, the route is locked,
and `s1` shows Hp1.  Neither clause survives as an invariant over reachable
states: a later HaGT chord on `s1` leaves the route locked with `s1` at Hp0
(see the counterexample), and a WGT chord dispatched at a suspension point
toggles a not-yet-locked turnout, which the run then locks at the wrong
position (see `route_change_interference_wrong_position`). -/
theorem route_change_uninterrupted_locks (w w' : RWorld)
    (ts fs : List (Nat × Bool)) (trks : List TrackRef)
    (hnd : ((ts ++ fs).map Prod.fst).Nodup)
    (hrun : routeChangeStaged w ts fs trks noInterference = (w', .success)) :
    (∀ p ∈ ts ++ fs, (w'.turnouts p.1).locked = true ∧
      (w'.turnouts p.1).position = p.2) ∧
    w'.routeLocked = true ∧ w'.s1aspect = "Hp1" := by
  unfold routeChangeStaged at hrun
  dsimp only at hrun
  split at hrun
  · simp at hrun
  · split at hrun
    · simp at hrun
    · split at hrun
      · simp at hrun
      · have hw := (congrArg Prod.fst hrun).symm
        subst hw
        refine ⟨?_, rfl, rfl⟩
        intro p hp
        constructor
        · apply stageLockTracks_noI_locked_mono
          exact stageLockTurnouts_noI_mem_locked _ _ _ p hp
        · rw [stageLockTracks_noI_position, stageLockTurnouts_noI_position,
            finishMoves_position]
          exact stageMove_noI_position (ts ++ fs) hnd 0 w p hp

/-- Witness for C1 (amended): an undisturbed run over a clear world with a
route turnout required diverging and a flank turnout required straight. -/
theorem route_change_uninterrupted_locks_witness :
    ((routeChangeStaged rwClear [(0, true)] [(1, false)] [.turnout 0, .plain 0]
        noInterference).1.turnouts 0).locked = true ∧
    ((routeChangeStaged rwClear [(0, true)] [(1, false)] [.turnout 0, .plain 0]
        noInterference).1.turnouts 0).position = true ∧
    ((routeChangeStaged rwClear [(0, true)] [(1, false)] [.turnout 0, .plain 0]
        noInterference).1.turnouts 1).locked = true ∧
    ((routeChangeStaged rwClear [(0, true)] [(1, false)] [.turnout 0, .plain 0]
        noInterference).1.turnouts 1).position = false ∧
    (routeChangeStaged rwClear [(0, true)] [(1, false)] [.turnout 0, .plain 0]
        noInterference).1.routeLocked = true ∧
    (routeChangeStaged rwClear [(0, true)] [(1, false)] [.turnout 0, .plain 0]
        noInterference).1.s1aspect = "Hp1" := by
  have h := route_change_uninterrupted_locks rwClear
    (routeChangeStaged rwClear [(0, true)] [(1, false)] [.turnout 0, .plain 0]
      noInterference).1
    [(0, true)] [(1, false)] [.turnout 0, .plain 0] (by decide) rfl
  exact ⟨(h.1 (0, true) (by simp)).1, (h.1 (0, true) (by simp)).2,
    (h.1 (1, false) (by simp)).1, (h.1 (1, false) (by simp)).2,
    h.2.1, h.2.2⟩

/-- A WGT+turnout chord dispatched while `Route.change` sleeps after issuing
the motion commands toggles the not-yet-locked turnout; the run then locks
it at the wrong position and still completes with the route locked.  This
interleaving is why `route_change_uninterrupted_locks` must assume an
undisturbed run. -/
theorem route_change_interference_wrong_position :
    (routeChangeStaged rwClear [(0, false)] [] [.turnout 0]
        (wgtChordAt 0 0)).2 = .success ∧
    ((routeChangeStaged rwClear [(0, false)] [] [.turnout 0]
        (wgtChordAt 0 0)).1.turnouts 0).locked = true ∧
    ((routeChangeStaged rwClear [(0, false)] [] [.turnout 0]
        (wgtChordAt 0 0)).1.turnouts 0).position = true ∧
    (routeChangeStaged rwClear [(0, false)] [] [.turnout 0]
        (wgtChordAt 0 0)).1.routeLocked = true :=
  ⟨rfl, rfl, rfl, rfl⟩

/-- C2: when `Route.change()` aborts at the prove-tracks step, every turnout
of `turnouts` and `flankProtections` keeps `locked = true`, the route's
`locked` stays false, and `s1`'s aspect is unchanged by the attempt. -/
theorem route_abort_tracks_keeps_locks (w w' : RWorld)
    (ts fs : List (Nat × Bool)) (trks : List TrackRef)
    (hout : routeChange w ts fs trks = (w', .abortTrackOccupied))
    (hrl : w.routeLocked = false) :
    (∀ p ∈ ts ++ fs, (w'.turnouts p.1).locked = true) ∧
    w'.routeLocked = false ∧ w'.s1aspect = w.s1aspect := by
  unfold routeChange at hout
  dsimp only at hout
  split at hout
  · simp at hout
  · split at hout
    · simp at hout
    · split at hout
      · have hw : w' = lockTurnouts (moveTurnouts w (ts ++ fs)) (ts ++ fs) :=
          (congrArg Prod.fst hout).symm
        subst hw
        refine ⟨fun p hp => lockTurnouts_mem_locked _ _ p hp, ?_, ?_⟩
        · rw [lockTurnouts_routeLocked, moveTurnouts_routeLocked]
          exact hrl
        · rw [lockTurnouts_s1aspect, moveTurnouts_s1aspect]
      · simp at hout

/-- Witness for C2: turnout 0 (position required true), flank turnout 1,
tracks `[turnout 0, track 0]` with track 0 occupied. -/
theorem route_abort_tracks_keeps_locks_witness :
    ((routeChange rwOccupiedTrack [(0, true)] [(1, false)]
        [.turnout 0, .plain 0]).1.turnouts 0).locked = true ∧
    ((routeChange rwOccupiedTrack [(0, true)] [(1, false)]
        [.turnout 0, .plain 0]).1.turnouts 1).locked = true ∧
    (routeChange rwOccupiedTrack [(0, true)] [(1, false)]
        [.turnout 0, .plain 0]).1.routeLocked = false ∧
    (routeChange rwOccupiedTrack [(0, true)] [(1, false)]
        [.turnout 0, .plain 0]).1.s1aspect = rwOccupiedTrack.s1aspect := by
  have h := route_abort_tracks_keeps_locks rwOccupiedTrack
    (routeChange rwOccupiedTrack [(0, true)] [(1, false)]
      [.turnout 0, .plain 0]).1
    [(0, true)] [(1, false)] [.turnout 0, .plain 0] rfl rfl
  exact ⟨h.1 (0, true) (by simp), h.1 (1, false) (by simp), h.2.1, h.2.2⟩

/-- C3: a panel button message for a turnout starts a position change
(`start_change(None)`) iff the parsed value makes `pushed` true, WGT is the
unique pushed outer button, and `locked`, `blocked`, `occupied` are all
false; with no outer button pushed the turnout's published state is
unchanged. -/
theorem turnout_button_change_iff (t : TO) (ob : OBs) (v : String) :
    ((turnoutOnButton t ob v).2 = true ↔
      to_bool v = true ∧ is_outer_button ob .WGT = true ∧
      t.locked = false ∧ t.blocked = false ∧ t.occupied = false) ∧
    ((∀ b, ob.pushedOf b = false) →
      (turnoutOnButton t ob v).1.observable = t.observable) := by
  have key : (turnoutOnButton t ob v).2
      = (to_bool v && is_outer_button ob .WGT &&
          !t.locked && !t.blocked && !t.occupied) := by
    unfold turnoutOnButton
    dsimp only
    split
    · rename_i hc
      exact hc.symm
    · rename_i hc
      simp only [Bool.not_eq_true] at hc
      exact hc.symm
  constructor
  · rw [key]
    simp only [Bool.and_eq_true, Bool.not_eq_true']
    tauto
  · intro hnone
    have hwgt : is_outer_button ob .WGT = false := by
      unfold is_outer_button
      rw [hnone]
      rfl
    unfold turnoutOnButton
    dsimp only
    split
    · rename_i hc
      rw [hwgt] at hc
      simp at hc
    · rfl

/-- Witness for C3: a lone turnout-button press leaves the published state
unchanged. -/
theorem turnout_button_change_iff_witness :
    (turnoutOnButton toClear OBs.none "1").1.observable = toClear.observable :=
  (turnout_button_change_iff toClear OBs.none "1").2 (fun b => by cases b <;> rfl)

/-- C4: a `BlockEnd`'s `blocked` can go from true to false only through a
panel button press whose parsed value is true while BlGT is the unique
pushed outer button and `clearance_lock` is false, and that press also sets
`clearance_lock` to true in the same update. -/
theorem blockend_unblock_only_blgt (b : BE) (e : BEEv)
    (hb : b.blocked = true) (hb' : (beStep b e).blocked = false) :
    ∃ ob v, e = BEEv.button ob v ∧ to_bool v = true ∧
      is_outer_button ob .BlGT = true ∧ b.clearance_lock = false ∧
      (beStep b e).clearance_lock = true := by
  cases e with
  | blockStartMsg v =>
      exfalso
      have hred : beStep b (.blockStartMsg v) =
          (if to_bool v = true then { b with blocked := true } else b) := rfl
      rw [hred] at hb'
      split at hb'
      · simp at hb'
      · rw [hb] at hb'
        simp at hb'
  | button ob v =>
      have hred : beStep b (.button ob v) =
          (if to_bool v && is_outer_button ob .BlGT && !b.clearance_lock
           then { b with pushed := to_bool v, blocked := false,
                         clearance_lock := true }
           else { b with pushed := to_bool v }) := rfl
      rw [hred] at hb'
      split at hb'
      · rename_i hc
        simp only [Bool.and_eq_true, Bool.not_eq_true'] at hc
        refine ⟨ob, v, rfl, hc.1.1, hc.1.2, hc.2, ?_⟩
        rw [hred]
        rw [if_pos]
        simp only [Bool.and_eq_true, Bool.not_eq_true']
        exact hc
      · exfalso
        have hx : b.blocked = false := hb'
        rw [hb] at hx
        simp at hx
  | clearanceRelease v =>
      exfalso
      have hred : beStep b (.clearanceRelease v) =
          (if (!to_bool v && b.clearance_lock) = true
           then { b with clearance_lock := false } else b) := rfl
      rw [hred] at hb'
      split at hb'
      · have hx : b.blocked = false := hb'
        rw [hb] at hx
        simp at hx
      · have hx : b.blocked = false := hb'
        rw [hb] at hx
        simp at hx
  | occupiedMsg v =>
      exfalso
      have hx : b.blocked = false := hb'
      rw [hb] at hx
      simp at hx

/-- Witness for C4: the BlGT chord on a blocked block end with released
clearance lock. -/
theorem blockend_unblock_only_blgt_witness :
    ∃ ob v, BEEv.button obBlGT "1" = BEEv.button ob v ∧ to_bool v = true ∧
      is_outer_button ob .BlGT = true ∧ beBlocked.clearance_lock = false ∧
      (beStep beBlocked (BEEv.button obBlGT "1")).clearance_lock = true :=
  blockend_unblock_only_blgt beBlocked (BEEv.button obBlGT "1") rfl (by decide)

/-- C5, counterexample: a `DistantSignal` mounted at a home signal showing
Hp0 publishes the literal `-`, which differs from `array_to_str` of its
current property values (here `aspect = Vr1`, a state reachable when the
driving home signal shows Hp1 while the mast signal shows Hp0). -/
theorem publish_payload_counterexample :
    Elem.publishPayload (.distant ⟨"Vr1", false⟩ (some "Hp0")) = some "-" ∧
    array_to_str (Elem.propVals (.distant ⟨"Vr1", false⟩ (some "Hp0"))) = "Vr1" ∧
    ("-" : String) ≠ "Vr1" :=
  ⟨rfl, rfl, by decide⟩

/-- C5, amended: every payload a `publish()` call sends equals
`array_to_str` of the element's property values in declared order, except
that a `DistantSignal` mounted at a home signal whose value is Hp0 sends the
literal `-`; an `OuterButton` sends nothing at all. -/
theorem publish_payload_amended (e : Elem) (p : String)
    (h : e.publishPayload = some p) :
    p = array_to_str e.propVals ∨
      ∃ d, e = Elem.distant d (some "Hp0") ∧ p = "-" := by
  cases e with
  | distant d m =>
      have hred : (Elem.distant d m).publishPayload =
          (if m = some "Hp0" then some "-"
           else some (array_to_str [.s d.aspect])) := rfl
      rw [hred] at h
      split at h
      · rename_i hm
        injection h with h2
        exact Or.inr ⟨d, by rw [hm], h2.symm⟩
      · injection h with h2
        exact Or.inl h2.symm
  | track t =>
      injection h with h2
      exact Or.inl h2.symm
  | turnout t =>
      injection h with h2
      exact Or.inl h2.symm
  | signal s =>
      injection h with h2
      exact Or.inl h2.symm
  | blockEnd b =>
      injection h with h2
      exact Or.inl h2.symm
  | blockStart b =>
      injection h with h2
      exact Or.inl h2.symm
  | counter c =>
      injection h with h2
      exact Or.inl h2.symm
  | outer => exact Option.noConfusion h

/-- Witness for C5 (amended) at a clear track. -/
theorem publish_payload_amended_witness :
    "0,0" = array_to_str (Elem.propVals (.track ⟨false, false, false⟩)) ∨
      ∃ d, Elem.track ⟨false, false, false⟩ = Elem.distant d (some "Hp0") ∧
        "0,0" = "-" :=
  publish_payload_amended (.track ⟨false, false, false⟩) "0,0" rfl

/-- C6, counterexample: `update(occupied=True, bogus=...)` on a `Track`
raises a key-lookup error and publishes nothing, but the state is NOT
unchanged: the valid key preceding the invalid one has already been
written. -/
theorem update_invalid_key_counterexample :
    (elementUpdate trackProperties trackDict badKwargs).raised = true ∧
    (elementUpdate trackProperties trackDict badKwargs).published = false ∧
    (elementUpdate trackProperties trackDict badKwargs).state ≠ trackDict :=
  ⟨rfl, rfl, by decide⟩

/-- C6, amended: an `update` call containing an invalid key raises a
key-lookup error at the first invalid key and publishes nothing, and the
resulting state is the original with exactly the valid-key writes preceding
the first invalid key applied (so the state is unchanged only when the
first key is already invalid). -/
theorem update_invalid_key_amended (props : List String)
    (st kwargs : List (String × Value))
    (h : kwargs.any (fun kv => !props.contains kv.1) = true) :
    elementUpdate props st kwargs =
      ⟨applyKw st (validKwPrefix props kwargs), false, true⟩ := by
  unfold elementUpdate
  rw [updateFold_invalid props kwargs st h]

/-- Witness for C6 (amended). -/
theorem update_invalid_key_amended_witness :
    elementUpdate trackProperties trackDict badKwargs =
      ⟨applyKw trackDict (validKwPrefix trackProperties badKwargs), false, true⟩ :=
  update_invalid_key_amended trackProperties trackDict badKwargs (by decide)

/-- C7: in every reachable state of the tower, while the mast signal `G`
shows Hp0 the last payload published on `panel/signal/d` is the literal `-`
(every publish of `d` while `G` shows Hp0 sends `-`, and every change of
`G`'s aspect republishes `d`). -/
theorem mounted_distant_dash (w : World) (h : Reachable w)
    (hg : w.g.aspect = "Hp0") : w.dLast = some "-" :=
  reachable_dmount w h hg

/-- Witness for C7 at the state reached by the route-locking chord (the
driving home signal `P1` shows Hp1, the mast signal `G` still shows Hp0). -/
theorem mounted_distant_dash_witness :
    (initWorld.run lockTrace).dLast = some "-" :=
  mounted_distant_dash _
    (reachable_run initWorld Reachable.init lockTrace) (by decide)

/-- C8, counterexample: the claim "`d.aspect` is always in {Vr0, Vr1, Vr2}
or `-`" is false: after an SGT chord on `P1` (which shows Sh1), the home
signal's `on_update` drives `start_distant('Sh1')`, and since Sh1 is not in
`translated_aspects` the distant's stored aspect becomes Sh1. -/
theorem distant_aspect_counterexample :
    Reachable (initWorld.run shuntTrace) ∧
    (initWorld.run shuntTrace).d.aspect = "Sh1" ∧
    ¬((initWorld.run shuntTrace).d.aspect = "Vr0" ∨
      (initWorld.run shuntTrace).d.aspect = "Vr1" ∨
      (initWorld.run shuntTrace).d.aspect = "Vr2" ∨
      (initWorld.run shuntTrace).d.aspect = "-") :=
  ⟨reachable_run initWorld Reachable.init shuntTrace, by decide, by decide⟩

/-- C8, amended: in every reachable state the distant signal's stored
aspect is in {Vr0, Vr1, Vr2, Sh1, Zs1}: the Hp aspects of its driving home
signal are translated to Vr aspects, while Sh1 and Zs1 (reachable through
the SGT and ErsGT chords on `P1`) pass through untranslated; the literal
`-` is only ever a published payload, never the stored aspect. -/
theorem distant_aspect_invariant (w : World) (h : Reachable w) :
    w.d.aspect ∈ ["Vr0", "Vr1", "Vr2", "Sh1", "Zs1"] :=
  reachable_daspect w h

/-- Witness for C8 (amended) at the reset state. -/
theorem distant_aspect_invariant_witness :
    initWorld.d.aspect ∈ ["Vr0", "Vr1", "Vr2", "Sh1", "Zs1"] :=
  distant_aspect_invariant initWorld Reachable.init

/-- C9: from any starting state, two `start_change()` calls with no
argument return the turnout's position to its original value with `moving`
false at the end — whether the first spawned `change` task ran only to its
sleep before being cancelled by the second call, or ran to completion. -/
theorem turnout_double_toggle (t : TO) :
    ((runChangeFull (runChangeToSleep t (changeTarget t none))
        (changeTarget (runChangeToSleep t (changeTarget t none)) none)).position
          = t.position ∧
     (runChangeFull (runChangeToSleep t (changeTarget t none))
        (changeTarget (runChangeToSleep t (changeTarget t none)) none)).moving
          = false) ∧
    ((runChangeFull (runChangeFull t (changeTarget t none))
        (changeTarget (runChangeFull t (changeTarget t none)) none)).position
          = t.position ∧
     (runChangeFull (runChangeFull t (changeTarget t none))
        (changeTarget (runChangeFull t (changeTarget t none)) none)).moving
          = false) := by
  rcases t with ⟨occ, pos, mov, lck, blk, psh⟩
  cases pos <;> exact ⟨⟨rfl, rfl⟩, ⟨rfl, rfl⟩⟩

/-- C10: a trackside track-occupancy message for a `Signal`,
`DistantSignal` or `OuterButton` raises a key-lookup error inside
`update(occupied=...)` (their property lists replace the base `['occupied']`),
so occupancy is never stored or published for these kinds. -/
theorem occupancy_message_raises :
    (∀ (st : List (String × Value)) (v : String),
      onOccupied signalProperties st v = ⟨st, false, true⟩) ∧
    (∀ (st : List (String × Value)) (v : String),
      onOccupied distantSignalProperties st v = ⟨st, false, true⟩) ∧
    (∀ (st kwargs : List (String × Value)),
      outerButtonUpdate st kwargs = ⟨st, false, true⟩) :=
  ⟨fun _ _ => rfl, fun _ _ => rfl, fun _ _ => rfl⟩
